import Mathlib

/-!
# Verification of `mal-sorter` (src/main.py)

A shallow embedding of the MyAnimeList reordering script: date conversion,
the OAuth callback handler, the authenticated HTTP client, paginated catalog
fetching, per-item history caching on the file system, and the reorder engine
that sorts cached histories by finish date and issues PATCH calls.

File-system and network effects are modelled by explicit state passing over a
`World` record; network responses come from oracle functions supplied as
parameters; JSON (de)serialization of a history record is modelled abstractly
by the `FileData` type (a file is either empty, as `open(path, "w")` leaves it,
or holds one serialized record, as `json.dump` leaves it).
-/

namespace MalSorter

/-! ## Date strings: `dmY_to_Ymd` (src/main.py 157-159)

`datetime.strptime(date, "%m/%d/%Y")` is modelled character-exactly:
CPython's `%m` and `%d` match one or two digits, `%Y` matches exactly four
digits, the separators must match literally and the whole string must be
consumed, and the parsed triple must be a valid `datetime` date
(month 1-12, day within the month, year 1-9999). `strftime` zero-pads
`%m`/`%d` to two digits and `%Y` to four. -/

/-- The decimal digit character for `n % 10`. -/
def digitChar (n : Nat) : Char := "0123456789".data.getD (n % 10) '0'

/-- Numeric value of a digit character. -/
def charVal (c : Char) : Nat := c.toNat - 48

/-- Value of a digit string (most significant digit first). -/
def parseDigits (cs : List Char) : Nat := cs.foldl (fun a c => a * 10 + charVal c) 0

/-- All characters are decimal digits. -/
def allDigits (cs : List Char) : Bool := cs.all Char.isDigit

/-- Two-digit zero-padded decimal rendering (`%m`, `%d`). -/
def pad2 (n : Nat) : List Char := [digitChar (n / 10), digitChar n]

/-- Four-digit zero-padded decimal rendering (`%Y`). -/
def pad4 (n : Nat) : List Char :=
  [digitChar (n / 1000), digitChar (n / 100), digitChar (n / 10), digitChar n]

/-- Split a character list on a separator character (like `str.split(sep)`:
`n` separators yield `n+1` groups, empty groups included). -/
def splitOnC (sep : Char) : List Char → List (List Char)
  | [] => [[]]
  | c :: cs =>
    if c = sep then [] :: splitOnC sep cs
    else
      match splitOnC sep cs with
      | [] => [[c]]
      | g :: gs => (c :: g) :: gs

/-- Gregorian leap-year rule used by `datetime`. -/
def isLeap (y : Nat) : Bool := y % 4 == 0 && (y % 100 != 0 || y % 400 == 0)

/-- Number of days in month `m` of year `y` (`datetime` validation). -/
def daysInMonth (m y : Nat) : Nat :=
  if m = 2 then (if isLeap y then 29 else 28)
  else if m = 4 ∨ m = 6 ∨ m = 9 ∨ m = 11 then 30
  else 31

/-- The triple `(m, d, y)` is a date `datetime(y, m, d)` accepts. -/
def validDate (m d y : Nat) : Prop :=
  1 ≤ m ∧ m ≤ 12 ∧ 1 ≤ d ∧ d ≤ daysInMonth m y ∧ 1 ≤ y ∧ y ≤ 9999

instance (m d y : Nat) : Decidable (validDate m d y) := by
  unfold validDate; infer_instance

/-- Shared validation of the three matched components (month, day, year):
`%m` and `%d` accept one or two digits, `%Y` exactly four, and the triple
must be a `datetime`-valid date. -/
def checkMDY (ms ds ys : List Char) : Option (Nat × Nat × Nat) :=
  if allDigits ms ∧ allDigits ds ∧ allDigits ys
      ∧ 1 ≤ ms.length ∧ ms.length ≤ 2
      ∧ 1 ≤ ds.length ∧ ds.length ≤ 2
      ∧ ys.length = 4 then
    let m := parseDigits ms
    let d := parseDigits ds
    let y := parseDigits ys
    if validDate m d y then some (m, d, y) else none
  else none

/-- `datetime.strptime(s, "%m/%d/%Y")`: returns the `(month, day, year)`
triple, or `none` when `strptime` raises `ValueError`. -/
def strptime_mdY (s : String) : Option (Nat × Nat × Nat) :=
  match splitOnC '/' s.data with
  | [ms, ds, ys] => checkMDY ms ds ys
  | _ => none

/-- `datetime.strptime(s, "%Y-%m-%d")` (as used by `pd.to_datetime` on the
ISO finish-date strings, and by the spec's back-conversion). -/
def strptime_Ymd (s : String) : Option (Nat × Nat × Nat) :=
  match splitOnC '-' s.data with
  | [ys, ms, ds] => checkMDY ms ds ys
  | _ => none

/-- `date.strftime("%Y-%m-%d")` for the date `(y, m, d)`. -/
def strftime_Ymd (m d y : Nat) : String := ⟨pad4 y ++ '-' :: pad2 m ++ '-' :: pad2 d⟩

/-- `date.strftime("%m/%d/%Y")` for the date `(y, m, d)`. -/
def strftime_mdY (m d y : Nat) : String := ⟨pad2 m ++ '/' :: pad2 d ++ '/' :: pad4 y⟩

/-- `dmY_to_Ymd` (src/main.py 157-159): convert `08/10/2018` to `2018-08-10`;
`none` models the `ValueError` `strptime` raises on a malformed date. -/
def dmY_to_Ymd (s : String) : Option String :=
  (strptime_mdY s).map fun p => strftime_Ymd p.1 p.2.1 p.2.2

/-- Modelled from the spec: the ISO → `MM/DD/YYYY` back-conversion of the
round-trip property ("`MM/DD/YYYY` → ISO and back"), which has no counterpart
in src/main.py; it mirrors
`datetime.strptime(s, "%Y-%m-%d").strftime("%m/%d/%Y")`. -/
def Ymd_to_mdY (s : String) : Option String :=
  (strptime_Ymd s).map fun p => strftime_mdY p.1 p.2.1 p.2.2

/-! ## Data model: catalog entries, history records, the effect world -/

/-- One row of the catalog table built by `get_animelist` (the fields the
claims use: `id`, `title`, `status`, `score`). -/
structure CatalogEntry where
  id : Nat
  title : String
  status : String
  score : Nat
deriving DecidableEq

/-- A scraped history record, as returned by `get_anime_update_history`
(src/main.py 123-133) and cached in `cache/<id>.json`. -/
structure HistoryRecord where
  anime_title : String
  anime_id : Nat
  updates : List String
deriving DecidableEq

/-- The content of a cache file. `open(outfile, "w")` creates the file
empty; a completed `json.dump` leaves exactly one serialized record.
Serialization is modelled abstractly by this type, so `empty` is the one
content `json.load` rejects. -/
inductive FileData where
  | empty
  | history (h : HistoryRecord)
deriving DecidableEq

/-- The Python exceptions the modelled operations can raise. -/
inductive Err where
  | httpError       -- requests.HTTPError from raise_for_status / fetch failure
  | fileNotFound    -- os.listdir("cache/") when the directory does not exist
  | attributeError  -- pandas column access on an empty, column-less frame
  | indexError      -- list index out of range
  | valueError      -- datetime.strptime parse failure
  | jsonError       -- json.load on a file holding no valid JSON
  | badRequestNoCode -- aiohttp HTTPBadRequest("No OAUTH code was returned by MAL.")
deriving DecidableEq

/-- `metadata` dict sent by `reorder_by_finished_date` to `patch_anime`. -/
structure PatchData where
  score : Nat
  start_date : String
  finish_date : String
deriving DecidableEq

/-- Observable state: cache-directory contents (in `os.listdir` order),
whether `Path("cache")` has been created, and effect counters/traces. -/
structure World where
  files : List (String × FileData)
  cacheDirExists : Bool
  fetches : Nat
  writes : Nat
  patchCalls : List (Nat × PatchData)
deriving DecidableEq

/-- Create or overwrite a file in the directory listing. -/
def setFile (k : String) (v : FileData) : List (String × FileData) → List (String × FileData)
  | [] => [(k, v)]
  | (k', v') :: fs => if k' = k then (k, v) :: fs else (k', v') :: setFile k v fs

/-! ## History scraping and caching (src/main.py 123-155) -/

/-- `get_anime_update_history`: one authenticated GET of the history page,
parsed into a record. The network and the HTML parse are the supplied
oracle; the world records that a fetch happened. -/
def get_anime_update_history (oracle : Nat → Except Err HistoryRecord)
    (anime_id : Nat) (w : World) : World × Except Err HistoryRecord :=
  ({ w with fetches := w.fetches + 1 }, oracle anime_id)

/-- `cache_anime_update_history` (src/main.py 139-145): skip when `outfile`
exists; otherwise `open(outfile, "w")` (creating the file empty), then fetch
the history inside the `with` block, then `json.dump` it. A fetch exception
propagates, leaving the file created but empty. -/
def cache_anime_update_history (oracle : Nat → Except Err HistoryRecord)
    (anime_id : Nat) (outfile : String) (w : World) : World × Except Err Unit :=
  if (w.files.lookup outfile).isSome then (w, .ok ())
  else
    let w1 : World := { w with files := setFile outfile .empty w.files,
                               writes := w.writes + 1 }
    match get_anime_update_history oracle anime_id w1 with
    | (w2, .ok info) =>
        ({ w2 with files := setFile outfile (.history info) w2.files }, .ok ())
    | (w2, .error e) => (w2, .error e)

/-- The cache file path `f"cache/{anime_id}.json"`. -/
def cacheFileName (anime_id : Nat) : String := "cache/" ++ toString anime_id ++ ".json"

/-- The loop body of `cache_completed_histories` over the completed rows:
`Path("cache").mkdir(exist_ok=True)` then cache one id; an exception aborts
the remaining iterations. -/
def cacheLoop (oracle : Nat → Except Err HistoryRecord) :
    List CatalogEntry → World → World × Except Err Unit
  | [], w => (w, .ok ())
  | e :: rest, w =>
    let w1 : World := { w with cacheDirExists := true }
    match cache_anime_update_history oracle e.id (cacheFileName e.id) w1 with
    | (w2, .ok _) => cacheLoop oracle rest w2
    | (w2, .error err) => (w2, .error err)

/-- `cache_completed_histories` (src/main.py 147-155): filter the catalog via
`self.alist[self.alist.status == "completed"]` and cache each completed row's
history. On an empty catalog `pd.DataFrame.from_records([])` built a
column-less frame, so the `.status` attribute access itself raises
`AttributeError` before any filtering. -/
def cache_completed_histories (oracle : Nat → Except Err HistoryRecord)
    (alist : List CatalogEntry) (w : World) : World × Except Err Unit :=
  if alist.isEmpty then (w, .error .attributeError)
  else cacheLoop oracle (alist.filter fun e => e.status == "completed") w

/-- `json.load` on a cache file. -/
def jsonLoad : FileData → Except Err HistoryRecord
  | .empty => .error .jsonError
  | .history h => .ok h

/-! ## Reorder engine (src/main.py 161-199) -/

/-- `str.split()` with no argument: split on runs of whitespace, discarding
empty tokens (accumulator-based scan over the characters). -/
def splitWsGo (acc : List Char) : List Char → List (List Char)
  | [] => if acc.isEmpty then [] else [acc.reverse]
  | c :: cs =>
    if c.isWhitespace then
      if acc.isEmpty then splitWsGo [] cs else acc.reverse :: splitWsGo [] cs
    else splitWsGo (c :: acc) cs

/-- `str.split()` on a string. -/
def splitWs (s : String) : List String := (splitWsGo [] s.data).map fun cs => ⟨cs⟩

/-- One record `{id, start_date, finish_date}` of `get_start_finish_dates`. -/
structure SFRecord where
  id : Nat
  start_date : String
  finish_date : String
deriving DecidableEq

/-- The record built for one cache file inside `get_start_finish_dates`
(src/main.py 168-174), in the source's evaluation order:
`data["updates"][-1].split()[4]` parsed and formatted for `start_date`, then
`data["updates"][0].split()[4]` for `finish_date`. -/
def recordDates (data : HistoryRecord) : Except Err SFRecord :=
  match data.updates.getLast? with
  | none => .error .indexError
  | some lastU =>
    match (splitWs lastU)[4]? with
    | none => .error .indexError
    | some ts =>
      match dmY_to_Ymd ts with
      | none => .error .valueError
      | some s =>
        match data.updates.head? with
        | none => .error .indexError
        | some firstU =>
          match (splitWs firstU)[4]? with
          | none => .error .indexError
          | some tf =>
            match dmY_to_Ymd tf with
            | none => .error .valueError
            | some f => .ok { id := data.anime_id, start_date := s, finish_date := f }

/-- The `for fname in os.listdir("cache/")` loop of `get_start_finish_dates`:
load each file and build its record; an exception aborts the loop. -/
def readCacheFiles : List (String × FileData) → Except Err (List SFRecord)
  | [] => .ok []
  | (_, fd) :: rest =>
    match jsonLoad fd with
    | .error e => .error e
    | .ok h =>
      match recordDates h with
      | .error e => .error e
      | .ok r =>
        match readCacheFiles rest with
        | .error e => .error e
        | .ok rs => .ok (r :: rs)

/-- `get_start_finish_dates` (src/main.py 161-175): list the cache directory
(raising `FileNotFoundError` when it does not exist) and build one record per
file. -/
def get_start_finish_dates (w : World) : Except Err (List SFRecord) :=
  if w.cacheDirExists then readCacheFiles w.files else .error .fileNotFound

/-- `pd.to_datetime` on one ISO finish-date string, reduced to a totally
ordered timestamp key (`y*10000 + m*100 + d` orders exactly like the date). -/
def dateKey (s : String) : Except Err Nat :=
  match strptime_Ymd s with
  | some (m, d, y) => .ok (y * 10000 + m * 100 + d)
  | none => .error .valueError

/-- `df["sort"] = pd.to_datetime(df.finish_date)`: attach the timestamp sort
key to every row, failing on the first unparseable date. -/
def toDatetimeCol : List SFRecord → Except Err (List (SFRecord × Nat))
  | [] => .ok []
  | r :: rest =>
    match dateKey r.finish_date with
    | .error e => .error e
    | .ok k =>
      match toDatetimeCol rest with
      | .error e => .error e
      | .ok ks => .ok ((r, k) :: ks)

/-- One row of the frame `get_reorder_df` returns: the sorted start/finish
table (including its `sort` key column) inner-merged with the catalog's
`score` and `title` columns on `id`. -/
structure ReorderRow where
  id : Nat
  start_date : String
  finish_date : String
  sort : Nat
  score : Nat
  title : String
deriving DecidableEq

/-- `get_reorder_df` (src/main.py 177-183): build the start/finish frame
(`from_records` of an empty list yields a column-less frame, so the
`df.finish_date` access raises `AttributeError`), sort ascending on the
`sort` key, and inner-merge (`df.merge(..., on="id")`, which preserves the
left frame's key order) with the catalog's id/score/title columns. -/
def get_reorder_df (alist : List CatalogEntry) (w : World) :
    Except Err (List ReorderRow) :=
  match get_start_finish_dates w with
  | .error e => .error e
  | .ok rows =>
    if rows.isEmpty then .error .attributeError
    else
      match toDatetimeCol rows with
      | .error e => .error e
      | .ok keyed =>
        let sorted := keyed.insertionSort fun a b => a.2 ≤ b.2
        .ok (sorted.flatMap fun rk =>
          (alist.filter fun e => e.id == rk.1.id).map fun e =>
            { id := rk.1.id, start_date := rk.1.start_date,
              finish_date := rk.1.finish_date, sort := rk.2,
              score := e.score, title := e.title })

/-- `reorder_by_finished_date` (src/main.py 185-199): one
`patch_anime(anime_id, metadata)` call per row of the reorder frame, in row
order; `patch` never raises, so every row is PATCHed. -/
def reorder_by_finished_date (alist : List CatalogEntry) (w : World) :
    World × Except Err Unit :=
  match get_reorder_df alist w with
  | .error e => (w, .error e)
  | .ok rows =>
    ({ w with patchCalls := w.patchCalls ++ rows.map fun r =>
        (r.id, { score := r.score, start_date := r.start_date,
                 finish_date := r.finish_date }) }, .ok ())

/-- The `__main__` pipeline after construction: `cache_completed_histories()`
followed by `reorder_by_finished_date()`. -/
def runPipeline (oracle : Nat → Except Err HistoryRecord)
    (alist : List CatalogEntry) (w : World) : World × Except Err Unit :=
  match cache_completed_histories oracle alist w with
  | (w1, .error e) => (w1, .error e)
  | (w1, .ok _) => reorder_by_finished_date alist w1

/-! ## API client (src/main.py 76-93) -/

structure Token where
  access_token : String
deriving DecidableEq

inductive Method where
  | GET
  | PATCH
deriving DecidableEq

/-- A request as actually sent on the wire by `requests`. -/
structure HttpRequest where
  method : Method
  url : String
  headers : List (String × String)
  formData : List (String × String)
deriving DecidableEq

structure HttpResponse where
  status : Nat
  body : String
deriving DecidableEq

/-- `requests.Response.raise_for_status()`: raises `HTTPError` exactly for
4xx and 5xx status codes, and returns silently otherwise. -/
def raise_for_status (r : HttpResponse) : Except Err HttpResponse :=
  if 400 ≤ r.status ∧ r.status < 600 then .error .httpError else .ok r

/-- The `{"Authorization": f"Bearer {token}"}` header dict. -/
def bearerHeaders (tok : Token) : List (String × String) :=
  [("Authorization", "Bearer " ++ tok.access_token)]

/-- `MyAnimeList.get` (src/main.py 76-81): send an authorized GET, call
`raise_for_status`, and return the response. The pair is (request sent,
outcome). -/
def mal_get (net : HttpRequest → HttpResponse) (tok : Token) (url : String) :
    HttpRequest × Except Err HttpResponse :=
  let req : HttpRequest :=
    { method := .GET, url := url, headers := bearerHeaders tok, formData := [] }
  (req, raise_for_status (net req))

/-- `MyAnimeList.patch` (src/main.py 83-87): send an authorized PATCH with
form-encoded data and return the raw response; no `raise_for_status`. -/
def mal_patch (net : HttpRequest → HttpResponse) (tok : Token) (url : String)
    (data : List (String × String)) : HttpRequest × HttpResponse :=
  let req : HttpRequest :=
    { method := .PATCH, url := url, headers := bearerHeaders tok, formData := data }
  (req, net req)

/-! ## OAuth authorizer (src/main.py 39-74) -/

/-- Mutable authorizer state: `self.code`, the persisted `token.json`
(`none` = file not created), and how many token-exchange POSTs were sent. -/
structure OAuthState where
  code : Option String
  tokenFile : Option Token
  exchangeCalls : Nat
deriving DecidableEq

/-- A redirect request hitting the `/callback` route. -/
structure CallbackRequest where
  query : List (String × String)
deriving DecidableEq

/-- What `_handle` raises: `GracefulExit` (stopping `web.run_app`) after
capturing the code, or `HTTPBadRequest` (a 400 response; the listener keeps
waiting) when the query has no `code`. -/
inductive HandleOutcome where
  | gracefulExit
  | badRequest
deriving DecidableEq

/-- `_handle` (src/main.py 39-45). -/
def handle (st : OAuthState) (req : CallbackRequest) : OAuthState × HandleOutcome :=
  match req.query.lookup "code" with
  | some c => ({ st with code := some c }, .gracefulExit)
  | none => (st, .badRequest)

/-- `_get_access_token` (src/main.py 47-65): POST the code to the token
endpoint, `raise_for_status`, and only then write `token.json`. -/
def get_access_token (exch : Option String → Except Err Token)
    (code : Option String) (st : OAuthState) : OAuthState × Except Err Unit :=
  let st1 : OAuthState := { st with exchangeCalls := st.exchangeCalls + 1 }
  match exch code with
  | .error e => (st1, .error e)
  | .ok tok => ({ st1 with tokenFile := some tok }, .ok ())

/-- The authorization step of `_authorize` (src/main.py 67-74) for one
incoming redirect request: `_handle` processes it; only `GracefulExit` stops
`web.run_app`, after which `_get_access_token(self.code)` runs. On
`HTTPBadRequest` the step fails: no exchange is attempted and no token file
is written. -/
def authorize_step (exch : Option String → Except Err Token)
    (st : OAuthState) (req : CallbackRequest) : OAuthState × Except Err Unit :=
  match handle st req with
  | (st1, .gracefulExit) => get_access_token exch st1.code st1
  | (st1, .badRequest) => (st1, .error .badRequestNoCode)

/-! ## Catalog fetcher (src/main.py 105-121) -/

/-- One item of a list-endpoint page: its `"node"` dict and its
`"list_status"` dict, each modelled as a string-keyed association list. -/
structure PageItem where
  node : List (String × String)
  list_status : List (String × String)
deriving DecidableEq

/-- One page of the paginated list endpoint: `response["data"]` and the
optional `response["paging"]["next"]` cursor. -/
structure Page where
  data : List PageItem
  next : Option String
deriving DecidableEq

/-- Python `{**a, **b}` on string-keyed dicts: keys of `a` in order with
`b`'s value winning collisions, then the keys of `b` not in `a`. -/
def dictMerge (a b : List (String × String)) : List (String × String) :=
  (a.map fun p => (p.1, ((b.lookup p.1).getD p.2))) ++
    b.filter fun q => (a.lookup q.1).isNone

/-- The `while True` accumulation loop of `get_animelist`, over the sequence
of pages the endpoint serves: append `response["data"]`, follow
`paging["next"]` if present, otherwise break. -/
def animelistLoop : List Page → List PageItem
  | [] => []
  | p :: rest =>
    p.data ++ (match p.next with
      | some _ => animelistLoop rest
      | none => [])

/-- `get_animelist` (src/main.py 105-121): collect all pages, then flatten
each item by merging its `node` dict with its `list_status` dict. -/
def get_animelist (pages : List Page) : List (List (String × String)) :=
  (animelistLoop pages).map fun item => dictMerge item.node item.list_status

/-! ## Decidability of `Except` equality (for concrete evaluations) -/

instance {ε α : Type} [DecidableEq ε] [DecidableEq α] : DecidableEq (Except ε α)
  | .error e, .error e' =>
    if h : e = e' then isTrue (by rw [h]) else isFalse fun hh => h (Except.error.inj hh)
  | .error _, .ok _ => isFalse fun hh => Except.noConfusion hh
  | .ok _, .error _ => isFalse fun hh => Except.noConfusion hh
  | .ok a, .ok b =>
    if h : a = b then isTrue (by rw [h]) else isFalse fun hh => h (Except.ok.inj hh)

/-! ## Concrete fixtures used by the counterexamples and witnesses -/

/-- A one-item catalog with no completed entry. -/
def noCompletedCatalog : List CatalogEntry :=
  [{ id := 5, title := "A", status := "watching", score := 7 }]

/-- A fresh start-of-run world: no cache directory, no cache files, no
effects recorded. -/
def freshWorld : World :=
  { files := [], cacheDirExists := false, fetches := 0, writes := 0, patchCalls := [] }

/-- A history oracle the zero-completed scenario never consults. -/
def unusedOracle : Nat → Except Err HistoryRecord := fun _ => .error .httpError

/-- The spec scenario's history record: most-recent-first updates whose fifth
tokens are `03/01/2020` and `01/01/2020`. -/
def scenarioRecord : HistoryRecord :=
  { anime_title := "T", anime_id := 11,
    updates := ["Ep 12, watched on 03/01/2020 Remove",
                "Ep 1, watched on 01/01/2020 Remove"] }

/-- A world whose cache holds exactly the scenario record. -/
def scenarioWorld : World :=
  { files := [("cache/11.json", .history scenarioRecord)], cacheDirExists := true,
    fetches := 0, writes := 0, patchCalls := [] }

/-- A two-item completed catalog for the reorder fixtures. -/
def twoCatalog : List CatalogEntry :=
  [{ id := 1, title := "X", status := "completed", score := 8 },
   { id := 2, title := "Y", status := "completed", score := 9 }]

/-- Cached history of id 1: finished 2020-03-01, started 2020-01-01. -/
def historyX : HistoryRecord :=
  { anime_title := "X", anime_id := 1,
    updates := ["Ep 2, watched on 03/01/2020", "Ep 1, watched on 01/01/2020"] }

/-- Cached history of id 2: single update on 2019-02-01. -/
def historyY : HistoryRecord :=
  { anime_title := "Y", anime_id := 2, updates := ["Ep 1, watched on 02/01/2019"] }

/-- Two cached histories finishing 2020-03-01 (id 1) and 2019-02-01 (id 2). -/
def twoWorld : World :=
  { files := [("cache/1.json", .history historyX), ("cache/2.json", .history historyY)],
    cacheDirExists := true, fetches := 0, writes := 0, patchCalls := [] }

/-- The reorder table on `twoCatalog`/`twoWorld`: id 2 first (earlier finish). -/
def twoRows : List ReorderRow :=
  [{ id := 2, start_date := "2019-02-01", finish_date := "2019-02-01",
     sort := 20190201, score := 9, title := "Y" },
   { id := 1, start_date := "2020-01-01", finish_date := "2020-03-01",
     sort := 20200301, score := 8, title := "X" }]

/-- `twoWorld` after `reorder_by_finished_date` records its two PATCHes
(id 2 first: earlier finish date). -/
def twoWorldPatched : World :=
  { files := [("cache/1.json", .history historyX), ("cache/2.json", .history historyY)],
    cacheDirExists := true, fetches := 0, writes := 0,
    patchCalls :=
      [(2, { score := 9, start_date := "2019-02-01", finish_date := "2019-02-01" }),
       (1, { score := 8, start_date := "2020-01-01", finish_date := "2020-03-01" })] }

/-- A fetchable record for the caching fixtures. -/
def sampleRecord : HistoryRecord :=
  { anime_title := "Z", anime_id := 3, updates := ["Ep 1, watched on 05/05/2021"] }

/-- An oracle that always serves `sampleRecord`. -/
def okOracle : Nat → Except Err HistoryRecord := fun _ => .ok sampleRecord

/-- An oracle whose fetch always raises. -/
def failOracle : Nat → Except Err HistoryRecord := fun _ => .error .httpError

/-- A network returning `304 Not Modified` to every request. -/
def net304 : HttpRequest → HttpResponse := fun _ => { status := 304, body := "" }

/-- First page of the pagination fixture (has a `next` cursor). -/
def pageA : Page :=
  { data := [{ node := [("id", "1")], list_status := [("status", "completed")] }],
    next := some "page2" }

/-- Final page of the pagination fixture (no `next` cursor). -/
def pageB : Page :=
  { data := [{ node := [("id", "2")], list_status := [("status", "watching")] },
             { node := [("id", "3")], list_status := [("status", "completed")] }],
    next := none }

/-! ### Digit and parsing lemmas -/

theorem digitChar_small (k : Nat) (h : k < 10) :
    (digitChar k).toNat = 48 + k ∧ (digitChar k).isDigit = true := by
  unfold digitChar
  interval_cases k <;> exact ⟨rfl, rfl⟩

theorem digitChar_mod (n : Nat) : digitChar n = digitChar (n % 10) := by
  unfold digitChar
  congr 1
  omega

theorem digitChar_toNat (n : Nat) : (digitChar n).toNat = 48 + n % 10 := by
  have h : n % 10 < 10 := Nat.mod_lt _ (by norm_num)
  rw [digitChar_mod]; exact (digitChar_small _ h).1

theorem digitChar_isDigit (n : Nat) : (digitChar n).isDigit = true := by
  have h : n % 10 < 10 := Nat.mod_lt _ (by norm_num)
  rw [digitChar_mod]; exact (digitChar_small _ h).2

theorem charVal_digitChar (n : Nat) : charVal (digitChar n) = n % 10 := by
  unfold charVal; rw [digitChar_toNat]; omega

theorem isDigit_ne_slash {c : Char} (h : c.isDigit = true) : c ≠ '/' := by
  rintro rfl; exact absurd h (by decide)

theorem isDigit_ne_dash {c : Char} (h : c.isDigit = true) : c ≠ '-' := by
  rintro rfl; exact absurd h (by decide)

theorem mem_pad2_isDigit {n : Nat} {c : Char} (h : c ∈ pad2 n) : c.isDigit = true := by
  simp only [pad2, List.mem_cons, List.mem_singleton, List.not_mem_nil, or_false] at h
  rcases h with rfl | rfl <;> exact digitChar_isDigit _

theorem mem_pad4_isDigit {n : Nat} {c : Char} (h : c ∈ pad4 n) : c.isDigit = true := by
  simp only [pad4, List.mem_cons, List.mem_singleton, List.not_mem_nil, or_false] at h
  rcases h with rfl | rfl | rfl | rfl <;> exact digitChar_isDigit _

theorem allDigits_pad2 (n : Nat) : allDigits (pad2 n) = true := by
  simp [allDigits, pad2, digitChar_isDigit]

theorem allDigits_pad4 (n : Nat) : allDigits (pad4 n) = true := by
  simp [allDigits, pad4, digitChar_isDigit]

theorem parseDigits_pad2 (n : Nat) (h : n < 100) : parseDigits (pad2 n) = n := by
  simp only [parseDigits, pad2, List.foldl, charVal_digitChar]
  omega

theorem parseDigits_pad4 (n : Nat) (h : n < 10000) : parseDigits (pad4 n) = n := by
  simp only [parseDigits, pad4, List.foldl, charVal_digitChar]
  omega

theorem splitOnC_no_sep (sep : Char) (xs : List Char) (h : ∀ c ∈ xs, c ≠ sep) :
    splitOnC sep xs = [xs] := by
  induction xs with
  | nil => rfl
  | cons c cs ih =>
    have hc : ¬ (c = sep) := h c (List.mem_cons_self _ _)
    have hrest := ih (fun c' hc' => h c' (List.mem_cons_of_mem _ hc'))
    simp [splitOnC, hc, hrest]

theorem splitOnC_append (sep : Char) (xs rest : List Char) (h : ∀ c ∈ xs, c ≠ sep) :
    splitOnC sep (xs ++ sep :: rest) = xs :: splitOnC sep rest := by
  induction xs with
  | nil => simp [splitOnC]
  | cons c cs ih =>
    have hc : ¬ (c = sep) := h c (List.mem_cons_self _ _)
    have hrest := ih (fun c' hc' => h c' (List.mem_cons_of_mem _ hc'))
    have step : splitOnC sep (c :: (cs ++ sep :: rest)) =
        match splitOnC sep (cs ++ sep :: rest) with
        | [] => [[c]]
        | g :: gs => (c :: g) :: gs := by
      simp only [splitOnC, if_neg hc]
    rw [List.cons_append, step, hrest]

theorem daysInMonth_le_31 (m y : Nat) : daysInMonth m y ≤ 31 := by
  unfold daysInMonth
  split <;> [split <;> omega; (split <;> omega)]

/-- The component checker accepts the canonical zero-padded rendering of a
valid date. -/
theorem checkMDY_pads (m d y : Nat) (hv : validDate m d y) :
    checkMDY (pad2 m) (pad2 d) (pad4 y) = some (m, d, y) := by
  obtain ⟨hm1, hm2, hd1, hd2, hy1, hy2⟩ := hv
  have hd31 : d ≤ 31 := le_trans hd2 (daysInMonth_le_31 m y)
  have hpm : parseDigits (pad2 m) = m := parseDigits_pad2 m (by omega)
  have hpd : parseDigits (pad2 d) = d := parseDigits_pad2 d (by omega)
  have hpy : parseDigits (pad4 y) = y := parseDigits_pad4 y (by omega)
  have hcond : allDigits (pad2 m) = true ∧ allDigits (pad2 d) = true
      ∧ allDigits (pad4 y) = true
      ∧ 1 ≤ (pad2 m).length ∧ (pad2 m).length ≤ 2
      ∧ 1 ≤ (pad2 d).length ∧ (pad2 d).length ≤ 2
      ∧ (pad4 y).length = 4 :=
    ⟨allDigits_pad2 m, allDigits_pad2 d, allDigits_pad4 y, by simp [pad2], by simp [pad2],
      by simp [pad2], by simp [pad2], by simp [pad4]⟩
  unfold checkMDY
  rw [if_pos hcond]
  simp only [hpm, hpd, hpy]
  rw [if_pos ⟨hm1, hm2, hd1, hd2, hy1, hy2⟩]

/-- The canonical `MM/DD/YYYY` rendering parses back to its date triple. -/
theorem strptime_mdY_strftime (m d y : Nat) (hv : validDate m d y) :
    strptime_mdY (strftime_mdY m d y) = some (m, d, y) := by
  have hsplit : splitOnC '/' (strftime_mdY m d y).data = [pad2 m, pad2 d, pad4 y] := by
    show splitOnC '/' (pad2 m ++ '/' :: (pad2 d ++ '/' :: pad4 y)) = _
    rw [splitOnC_append _ _ _ (fun c hc => isDigit_ne_slash (mem_pad2_isDigit hc)),
        splitOnC_append _ _ _ (fun c hc => isDigit_ne_slash (mem_pad2_isDigit hc)),
        splitOnC_no_sep _ _ (fun c hc => isDigit_ne_slash (mem_pad4_isDigit hc))]
  unfold strptime_mdY
  rw [hsplit]
  show checkMDY (pad2 m) (pad2 d) (pad4 y) = some (m, d, y)
  exact checkMDY_pads m d y hv

/-- The canonical `YYYY-MM-DD` rendering parses back to its date triple. -/
theorem strptime_Ymd_strftime (m d y : Nat) (hv : validDate m d y) :
    strptime_Ymd (strftime_Ymd m d y) = some (m, d, y) := by
  have hsplit : splitOnC '-' (strftime_Ymd m d y).data = [pad4 y, pad2 m, pad2 d] := by
    show splitOnC '-' (pad4 y ++ '-' :: (pad2 m ++ '-' :: pad2 d)) = _
    rw [splitOnC_append _ _ _ (fun c hc => isDigit_ne_dash (mem_pad4_isDigit hc)),
        splitOnC_append _ _ _ (fun c hc => isDigit_ne_dash (mem_pad2_isDigit hc)),
        splitOnC_no_sep _ _ (fun c hc => isDigit_ne_dash (mem_pad2_isDigit hc))]
  unfold strptime_Ymd
  rw [hsplit]
  show checkMDY (pad2 m) (pad2 d) (pad4 y) = some (m, d, y)
  exact checkMDY_pads m d y hv

/-- C5: for every valid calendar date, converting its `MM/DD/YYYY` rendering
with `dmY_to_Ymd` yields the ISO `YYYY-MM-DD` rendering, and converting the
ISO result back to `MM/DD/YYYY` recovers the original string. -/
theorem dmY_to_Ymd_roundtrip (m d y : Nat) (hv : validDate m d y) :
    dmY_to_Ymd (strftime_mdY m d y) = some (strftime_Ymd m d y) ∧
    Ymd_to_mdY (strftime_Ymd m d y) = some (strftime_mdY m d y) := by
  constructor
  · unfold dmY_to_Ymd
    rw [strptime_mdY_strftime m d y hv]
    rfl
  · unfold Ymd_to_mdY
    rw [strptime_Ymd_strftime m d y hv]
    rfl

/-- Witness for C5 at the leap day `02/29/2020`. -/
theorem dmY_to_Ymd_roundtrip_witness :
    validDate 2 29 2020 ∧
    dmY_to_Ymd "02/29/2020" = some "2020-02-29" ∧
    Ymd_to_mdY "2020-02-29" = some "02/29/2020" := by
  refine ⟨by decide, ?_⟩
  have h := dmY_to_Ymd_roundtrip 2 29 2020 (by decide)
  have e1 : strftime_mdY 2 29 2020 = "02/29/2020" := by decide
  have e2 : strftime_Ymd 2 29 2020 = "2020-02-29" := by decide
  rw [e1, e2] at h
  exact h

/-! ## Association-list lemmas -/

theorem lookup_setFile_self (k : String) (v : FileData) :
    ∀ fs : List (String × FileData), ((setFile k v fs).lookup k) = some v := by
  intro fs
  induction fs with
  | nil => simp [setFile, List.lookup]
  | cons p fs ih =>
    obtain ⟨k', v'⟩ := p
    by_cases h : k' = k
    · subst h
      simp [setFile, List.lookup]
    · have hb : (k == k') = false := beq_eq_false_iff_ne.mpr (Ne.symm h)
      simp [setFile, h, List.lookup, hb, ih]

/-- `cache_anime_update_history` is a no-op when the file already exists. -/
theorem cache_skip_existing (oracle : Nat → Except Err HistoryRecord)
    (anime_id : Nat) (outfile : String) (w : World)
    (h : (w.files.lookup outfile).isSome = true) :
    cache_anime_update_history oracle anime_id outfile w = (w, .ok ()) := by
  unfold cache_anime_update_history
  rw [h]
  rfl

/-! ## C3: redirect without a `code` parameter -/

/-- C3: for every OAuth redirect request without a `code` query parameter,
the authorization step fails with a `HTTPBadRequest` error, the token
exchange is never called, and the token file is untouched (in particular
`token.json` is not created). -/
theorem authorize_no_code_fails (exch : Option String → Except Err Token)
    (st : OAuthState) (req : CallbackRequest)
    (h : req.query.lookup "code" = none) :
    authorize_step exch st req = (st, .error .badRequestNoCode) ∧
    (authorize_step exch st req).1.exchangeCalls = st.exchangeCalls ∧
    (authorize_step exch st req).1.tokenFile = st.tokenFile := by
  have hh : handle st req = (st, .badRequest) := by
    unfold handle; rw [h]
  have key : authorize_step exch st req = (st, .error .badRequestNoCode) := by
    unfold authorize_step; rw [hh]
  exact ⟨key, by rw [key], by rw [key]⟩

/-- Witness for C3: a redirect carrying only a `state` parameter. -/
theorem authorize_no_code_fails_witness :
    authorize_step (fun _ => Except.ok ⟨"tok"⟩) ⟨none, none, 0⟩ ⟨[("state", "xyz")]⟩
      = (⟨none, none, 0⟩, .error .badRequestNoCode) :=
  (authorize_no_code_fails (fun _ => Except.ok ⟨"tok"⟩) ⟨none, none, 0⟩
    ⟨[("state", "xyz")]⟩ (by decide)).1

/-! ## C4: caching is idempotent-by-skip -/

/-- C4: when the output file is absent and the fetch succeeds, the first
`cache_anime_update_history` call performs exactly one fetch and one file
write and stores the record; the second call with the same id and path finds
the file present and does nothing. -/
theorem cache_twice_once (oracle : Nat → Except Err HistoryRecord)
    (anime_id : Nat) (outfile : String) (w : World) (info : HistoryRecord)
    (habs : w.files.lookup outfile = none)
    (hok : oracle anime_id = .ok info) :
    ((cache_anime_update_history oracle anime_id outfile w).1.fetches = w.fetches + 1) ∧
    ((cache_anime_update_history oracle anime_id outfile w).1.writes = w.writes + 1) ∧
    ((cache_anime_update_history oracle anime_id outfile w).1.files.lookup outfile
        = some (.history info)) ∧
    ((cache_anime_update_history oracle anime_id outfile w).2 = .ok ()) ∧
    (cache_anime_update_history oracle anime_id outfile
        (cache_anime_update_history oracle anime_id outfile w).1
      = ((cache_anime_update_history oracle anime_id outfile w).1, .ok ())) := by
  have key : cache_anime_update_history oracle anime_id outfile w =
      ({ w with files := setFile outfile (.history info) (setFile outfile .empty w.files),
                fetches := w.fetches + 1, writes := w.writes + 1 }, .ok ()) := by
    unfold cache_anime_update_history get_anime_update_history
    rw [habs, hok]
    rfl
  rw [key]
  refine ⟨rfl, rfl, lookup_setFile_self _ _ _, rfl, ?_⟩
  exact cache_skip_existing oracle anime_id outfile _
    (by rw [lookup_setFile_self]; rfl)

/-- Witness for C4 on a fresh world and the sample oracle. -/
theorem cache_twice_once_witness :
    ((cache_anime_update_history okOracle 3 "cache/3.json" freshWorld).1.fetches = 1) ∧
    ((cache_anime_update_history okOracle 3 "cache/3.json" freshWorld).1.writes = 1) ∧
    ((cache_anime_update_history okOracle 3 "cache/3.json" freshWorld).1.files.lookup
        "cache/3.json" = some (.history sampleRecord)) ∧
    ((cache_anime_update_history okOracle 3 "cache/3.json" freshWorld).2 = .ok ()) ∧
    (cache_anime_update_history okOracle 3 "cache/3.json"
        (cache_anime_update_history okOracle 3 "cache/3.json" freshWorld).1
      = ((cache_anime_update_history okOracle 3 "cache/3.json" freshWorld).1, .ok ())) :=
  cache_twice_once okOracle 3 "cache/3.json" freshWorld sampleRecord rfl rfl

/-! ## C9: a failed fetch leaves a poisoned empty cache file -/

/-- C9: when the output file is absent and the fetch raises, the exception
propagates but the file has already been created empty (no valid JSON:
`json.load` on it fails), one fetch was spent, and every later call for the
same id skips the fetch, so the record is never repaired. -/
theorem cache_failed_fetch_poisons (oracle : Nat → Except Err HistoryRecord)
    (anime_id : Nat) (outfile : String) (w : World) (e : Err)
    (habs : w.files.lookup outfile = none)
    (hfail : oracle anime_id = .error e) :
    ((cache_anime_update_history oracle anime_id outfile w).2 = .error e) ∧
    ((cache_anime_update_history oracle anime_id outfile w).1.files.lookup outfile
        = some .empty) ∧
    (jsonLoad .empty = .error .jsonError) ∧
    ((cache_anime_update_history oracle anime_id outfile w).1.fetches = w.fetches + 1) ∧
    (cache_anime_update_history oracle anime_id outfile
        (cache_anime_update_history oracle anime_id outfile w).1
      = ((cache_anime_update_history oracle anime_id outfile w).1, .ok ())) := by
  have key : cache_anime_update_history oracle anime_id outfile w =
      ({ w with files := setFile outfile .empty w.files,
                fetches := w.fetches + 1, writes := w.writes + 1 }, .error e) := by
    unfold cache_anime_update_history get_anime_update_history
    rw [habs, hfail]
    rfl
  rw [key]
  refine ⟨rfl, lookup_setFile_self _ _ _, rfl, rfl, ?_⟩
  exact cache_skip_existing oracle anime_id outfile _
    (by rw [lookup_setFile_self]; rfl)

/-- Witness for C9 on a fresh world and the failing oracle. -/
theorem cache_failed_fetch_poisons_witness :
    ((cache_anime_update_history failOracle 3 "cache/3.json" freshWorld).2
        = .error .httpError) ∧
    ((cache_anime_update_history failOracle 3 "cache/3.json" freshWorld).1.files.lookup
        "cache/3.json" = some .empty) ∧
    (jsonLoad .empty = .error .jsonError) ∧
    ((cache_anime_update_history failOracle 3 "cache/3.json" freshWorld).1.fetches = 1) ∧
    (cache_anime_update_history failOracle 3 "cache/3.json"
        (cache_anime_update_history failOracle 3 "cache/3.json" freshWorld).1
      = ((cache_anime_update_history failOracle 3 "cache/3.json" freshWorld).1, .ok ())) :=
  cache_failed_fetch_poisons failOracle 3 "cache/3.json" freshWorld .httpError rfl rfl

/-! ## C2: zero completed items (corrected) -/

/-- C2 counterexample: on a catalog with zero completed entries and a fresh
world, the pipeline does not produce an empty reorder table — it raises
`FileNotFoundError` from `os.listdir("cache/")`, because the loop that would
create the cache directory never ran. -/
theorem pipeline_zero_completed_raises :
    ((noCompletedCatalog.filter fun e => e.status == "completed") = []) ∧
    (runPipeline unusedOracle noCompletedCatalog freshWorld
        = (freshWorld, .error .fileNotFound)) ∧
    (∀ u : Unit, (runPipeline unusedOracle noCompletedCatalog freshWorld).2 ≠ .ok u) := by
  refine ⟨by decide, rfl, ?_⟩
  intro u h
  cases u
  exact absurd h (by decide)

/-- C2 amended: a catalog with zero completed items performs no fetch, no
cache write and zero PATCH calls, but the pipeline fails instead of
producing an empty reorder table: on an empty catalog the `.status` access
of `cache_completed_histories` raises `AttributeError` (column-less frame);
on a non-empty catalog with no completed row, a fresh run raises
`FileNotFoundError` from `os.listdir("cache/")`. -/
theorem pipeline_zero_completed_amended (oracle : Nat → Except Err HistoryRecord)
    (alist : List CatalogEntry) (w : World)
    (hzero : (alist.filter fun e => e.status == "completed") = [])
    (hfresh : w.cacheDirExists = false) :
    ((runPipeline oracle alist w).1.patchCalls = w.patchCalls) ∧
    ((runPipeline oracle alist w).1.fetches = w.fetches) ∧
    ((runPipeline oracle alist w).1.writes = w.writes) ∧
    ((runPipeline oracle alist w).2
        = .error (if alist.isEmpty then Err.attributeError else Err.fileNotFound)) := by
  by_cases halist : alist.isEmpty = true
  · have h1 : cache_completed_histories oracle alist w = (w, .error .attributeError) := by
      unfold cache_completed_histories
      rw [if_pos halist]
    have key : runPipeline oracle alist w = (w, .error .attributeError) := by
      unfold runPipeline
      rw [h1]
    rw [key, if_pos halist]
    exact ⟨rfl, rfl, rfl, rfl⟩
  · have h1 : cache_completed_histories oracle alist w = (w, .ok ()) := by
      unfold cache_completed_histories
      rw [if_neg halist, hzero]
      rfl
    have h2 : get_start_finish_dates w = .error .fileNotFound := by
      unfold get_start_finish_dates
      rw [hfresh]
      rfl
    have h3 : reorder_by_finished_date alist w = (w, .error .fileNotFound) := by
      unfold reorder_by_finished_date get_reorder_df
      rw [h2]
    have key : runPipeline oracle alist w = (w, .error .fileNotFound) := by
      unfold runPipeline
      rw [h1]
      exact h3
    rw [key, if_neg halist]
    exact ⟨rfl, rfl, rfl, rfl⟩

/-- Witness for the amended C2 on the concrete no-completed fixture. -/
theorem pipeline_zero_completed_amended_witness :
    ((runPipeline unusedOracle noCompletedCatalog freshWorld).1.patchCalls
        = freshWorld.patchCalls) ∧
    ((runPipeline unusedOracle noCompletedCatalog freshWorld).1.fetches
        = freshWorld.fetches) ∧
    ((runPipeline unusedOracle noCompletedCatalog freshWorld).1.writes
        = freshWorld.writes) ∧
    ((runPipeline unusedOracle noCompletedCatalog freshWorld).2
        = .error .fileNotFound) :=
  pipeline_zero_completed_amended unusedOracle noCompletedCatalog freshWorld
    (by decide) rfl

/-! ## C7: client error handling (corrected) -/

/-- C7 counterexample: `304 Not Modified` is not a 2xx status, yet `get`
does not raise on it — `raise_for_status` only raises for 4xx/5xx. -/
theorem mal_get_304_no_raise :
    (¬ (200 ≤ (304 : Nat) ∧ (304 : Nat) < 300)) ∧
    ((mal_get net304 ⟨"t"⟩ "u").2 = .ok { status := 304, body := "" }) :=
  ⟨by omega, rfl⟩

/-- C7 amended: both client calls attach the bearer-token header; `get`
raises exactly on 4xx/5xx responses (status 400-599) and returns the
response otherwise; `patch` returns the raw response for every status. -/
theorem client_contract (net : HttpRequest → HttpResponse) (tok : Token)
    (url : String) (data : List (String × String)) :
    ((mal_get net tok url).1.headers = bearerHeaders tok) ∧
    ((mal_patch net tok url data).1.headers = bearerHeaders tok) ∧
    ((mal_get net tok url).2 =
      if 400 ≤ (net (mal_get net tok url).1).status
          ∧ (net (mal_get net tok url).1).status < 600
      then .error .httpError
      else .ok (net (mal_get net tok url).1)) ∧
    ((mal_patch net tok url data).2 = net (mal_patch net tok url data).1) :=
  ⟨rfl, rfl, rfl, rfl⟩

/-! ## C8: pagination -/

/-- The accumulation loop consumes every page when each page before the last
carries a `next` cursor. -/
theorem animelistLoop_length (pages : List Page)
    (hfollow : ∀ p ∈ pages.dropLast, p.next.isSome = true) :
    (animelistLoop pages).length = (pages.map fun p => p.data.length).sum := by
  induction pages with
  | nil => rfl
  | cons p rest ih =>
    cases rest with
    | nil =>
      cases hnext : p.next <;> simp [animelistLoop, hnext]
    | cons q rest2 =>
      have hp : p.next.isSome = true := by
        apply hfollow
        rw [List.dropLast_cons₂]
        exact List.mem_cons_self _ _
      obtain ⟨nx, hnx⟩ := Option.isSome_iff_exists.mp hp
      have ih2 := ih fun r hr => hfollow r (by
        rw [List.dropLast_cons₂]
        exact List.mem_cons_of_mem _ hr)
      have step : animelistLoop (p :: q :: rest2) = p.data ++ animelistLoop (q :: rest2) := by
        unfold animelistLoop
        rw [hnx]
        rfl
      rw [step, List.length_append, ih2]
      simp

/-- C8: following the pages until the `next` cursor is absent, the merged
catalog has one row per item — its length is the sum of the per-page item
counts — and every row is the `{**node, **list_status}` merge of its item. -/
theorem animelist_length_merge (pages : List Page)
    (hfollow : ∀ p ∈ pages.dropLast, p.next.isSome = true) :
    ((get_animelist pages).length = (pages.map fun p => p.data.length).sum) ∧
    (∀ row ∈ get_animelist pages, ∃ item ∈ animelistLoop pages,
        row = dictMerge item.node item.list_status) := by
  constructor
  · rw [get_animelist, List.length_map]
    exact animelistLoop_length pages hfollow
  · intro row hrow
    obtain ⟨item, hitem, heq⟩ := List.mem_map.mp hrow
    exact ⟨item, hitem, heq.symm⟩

/-- Witness for C8 on the two-page fixture (1 + 2 items). -/
theorem animelist_length_merge_witness :
    ((get_animelist [pageA, pageB]).length
        = ([pageA, pageB].map fun p => p.data.length).sum) ∧
    (∀ row ∈ get_animelist [pageA, pageB], ∃ item ∈ animelistLoop [pageA, pageB],
        row = dictMerge item.node item.list_status) :=
  animelist_length_merge [pageA, pageB] (by decide)

/-! ## C6: fifth-token date extraction -/

/-- C6: for a cached history record, `get_start_finish_dates` takes the
fifth whitespace token of `updates[-1]` as the start date and of
`updates[0]` as the finish date, converts both from `MM/DD/YYYY` to
`YYYY-MM-DD`, and emits them with the record's `anime_id`. -/
theorem start_finish_fifth_token (w : World) (fname : String)
    (hrec : HistoryRecord) (firstU lastU ts tf s f : String)
    (hw : w.files = [(fname, .history hrec)])
    (hdir : w.cacheDirExists = true)
    (h1 : hrec.updates.head? = some firstU)
    (h2 : hrec.updates.getLast? = some lastU)
    (h3 : (splitWs lastU)[4]? = some ts)
    (h4 : (splitWs firstU)[4]? = some tf)
    (h5 : dmY_to_Ymd ts = some s)
    (h6 : dmY_to_Ymd tf = some f) :
    (recordDates hrec
        = .ok { id := hrec.anime_id, start_date := s, finish_date := f }) ∧
    (get_start_finish_dates w
        = .ok [{ id := hrec.anime_id, start_date := s, finish_date := f }]) := by
  have hr : recordDates hrec
      = .ok { id := hrec.anime_id, start_date := s, finish_date := f } := by
    unfold recordDates
    simp only [h1, h2, h3, h4, h5, h6]
  refine ⟨hr, ?_⟩
  unfold get_start_finish_dates
  rw [hdir, hw]
  show readCacheFiles [(fname, .history hrec)] = _
  unfold readCacheFiles
  simp only [jsonLoad, hr]
  rfl

/-- Witness for C6: the spec scenario record yields start `2020-01-01` and
finish `2020-03-01`. -/
theorem start_finish_fifth_token_witness :
    (recordDates scenarioRecord
        = .ok { id := 11, start_date := "2020-01-01", finish_date := "2020-03-01" }) ∧
    (get_start_finish_dates scenarioWorld
        = .ok [{ id := 11, start_date := "2020-01-01", finish_date := "2020-03-01" }]) :=
  start_finish_fifth_token scenarioWorld "cache/11.json" scenarioRecord
    "Ep 12, watched on 03/01/2020 Remove" "Ep 1, watched on 01/01/2020 Remove"
    "01/01/2020" "03/01/2020" "2020-01-01" "2020-03-01"
    rfl rfl rfl rfl rfl rfl rfl rfl

/-! ## Membership and sortedness lemmas for the reorder frame -/

/-- Keys attached by `toDatetimeCol` are the parsed finish dates, and each
keyed record is among the inputs. -/
theorem toDatetimeCol_spec (rows : List SFRecord) :
    ∀ keyed : List (SFRecord × Nat), toDatetimeCol rows = .ok keyed →
      ∀ rk ∈ keyed, dateKey rk.1.finish_date = .ok rk.2 ∧ rk.1 ∈ rows := by
  induction rows with
  | nil =>
    intro keyed h rk hrk
    unfold toDatetimeCol at h
    injection h with h
    subst h
    exact absurd hrk (List.not_mem_nil _)
  | cons r rest ih =>
    intro keyed h rk hrk
    unfold toDatetimeCol at h
    split at h
    · exact Except.noConfusion h
    rename_i k hk
    split at h
    · exact Except.noConfusion h
    rename_i ks hks
    injection h with h
    subst h
    rcases List.mem_cons.mp hrk with rfl | hmem
    · exact ⟨hk, List.mem_cons_self _ _⟩
    · obtain ⟨hd, hm⟩ := ih ks hks rk hmem
      exact ⟨hd, List.mem_cons_of_mem _ hm⟩

/-- Every record emitted by `readCacheFiles` decodes from one of the listed
files. -/
theorem readCacheFiles_spec (files : List (String × FileData)) :
    ∀ rs, readCacheFiles files = .ok rs →
      ∀ r ∈ rs, ∃ fname fd hrec, (fname, fd) ∈ files ∧ jsonLoad fd = .ok hrec ∧
        recordDates hrec = .ok r := by
  induction files with
  | nil =>
    intro rs h r hr
    unfold readCacheFiles at h
    injection h with h
    subst h
    exact absurd hr (List.not_mem_nil _)
  | cons p rest ih =>
    intro rs h r hr
    obtain ⟨fname, fd⟩ := p
    unfold readCacheFiles at h
    split at h
    · exact Except.noConfusion h
    rename_i hrec0 hload
    split at h
    · exact Except.noConfusion h
    rename_i r0 hrd
    split at h
    · exact Except.noConfusion h
    rename_i rs0 hrest
    injection h with h
    subst h
    rcases List.mem_cons.mp hr with rfl | hmem
    · exact ⟨fname, fd, hrec0, List.mem_cons_self _ _, hload, hrd⟩
    · obtain ⟨fn, fd', hrec', hmem', hload', hrd'⟩ := ih rs0 hrest r hmem
      exact ⟨fn, fd', hrec', List.mem_cons_of_mem _ hmem', hload', hrd'⟩

/-- A record built by `recordDates` carries the history's `anime_id`. -/
theorem recordDates_id (hrec : HistoryRecord) (r : SFRecord)
    (h : recordDates hrec = .ok r) : r.id = hrec.anime_id := by
  unfold recordDates at h
  repeat' split at h
  all_goals try exact Except.noConfusion h
  all_goals injection h with h
  all_goals rw [← h]

/-- Pairwise key-monotonicity survives `flatMap` when each generated element
inherits its generator's key. -/
theorem pairwise_key_flatMap {α β : Type} (keyA : α → Nat) (keyB : β → Nat)
    (f : α → List β) (hf : ∀ a, ∀ b ∈ f a, keyB b = keyA a) :
    ∀ l : List α, l.Pairwise (fun x y => keyA x ≤ keyA y) →
      (l.flatMap f).Pairwise (fun x y => keyB x ≤ keyB y) := by
  intro l
  induction l with
  | nil => intro _; simp
  | cons a rest ih =>
    intro hl
    rw [List.flatMap_cons]
    rcases List.pairwise_cons.mp hl with ⟨ha, hrest⟩
    apply List.pairwise_append.mpr
    refine ⟨?_, ih hrest, ?_⟩
    · apply List.pairwise_of_forall_mem_list
      intro x hx y hy
      rw [hf a x hx, hf a y hy]
    · intro x hx y hy
      obtain ⟨a', ha', hy'⟩ := List.mem_flatMap.mp hy
      rw [hf a x hx, hf a' y hy']
      exact ha a' ha'

/-! ## C1: the reorder table is sorted by finish date -/

/-- C1: whenever `get_reorder_df` succeeds (it fails on an empty cache, so
this covers every non-empty set of cached history records), the returned
table — the sorted start/finish frame after its inner merge with the
catalog's score/title columns — is sorted non-decreasing on the `sort` key,
and each row's `sort` key is exactly its parsed `finish_date`. -/
theorem reorder_df_sorted (alist : List CatalogEntry) (w : World)
    (rows : List ReorderRow) (h : get_reorder_df alist w = .ok rows) :
    rows.Pairwise (fun a b => a.sort ≤ b.sort) ∧
    ∀ r ∈ rows, dateKey r.finish_date = .ok r.sort := by
  unfold get_reorder_df at h
  split at h
  · exact Except.noConfusion h
  rename_i rows0 hsf
  split at h
  · exact Except.noConfusion h
  split at h
  · exact Except.noConfusion h
  rename_i keyed hkey
  injection h with h
  subst h
  haveI : IsTrans (SFRecord × Nat) (fun a b => a.2 ≤ b.2) :=
    ⟨fun _ _ _ hab hbc => le_trans hab hbc⟩
  haveI : IsTotal (SFRecord × Nat) (fun a b => a.2 ≤ b.2) :=
    ⟨fun a b => Nat.le_total a.2 b.2⟩
  constructor
  · apply pairwise_key_flatMap (fun rk => rk.2) (fun r : ReorderRow => r.sort)
    · intro a b hb
      obtain ⟨e, _, hbe⟩ := List.mem_map.mp hb
      rw [← hbe]
    · exact List.sorted_insertionSort (fun a b => a.2 ≤ b.2) keyed
  · intro r hr
    obtain ⟨rk, hrk, hr2⟩ := List.mem_flatMap.mp hr
    obtain ⟨e, _, hre⟩ := List.mem_map.mp hr2
    have hk : rk ∈ keyed := (List.mem_insertionSort _).mp hrk
    obtain ⟨hdk, _⟩ := toDatetimeCol_spec rows0 keyed hkey rk hk
    rw [← hre]
    exact hdk

/-- Witness for C1 on the two-record fixture. -/
theorem reorder_df_sorted_witness :
    twoRows.Pairwise (fun a b => a.sort ≤ b.sort) ∧
    ∀ r ∈ twoRows, dateKey r.finish_date = .ok r.sort :=
  reorder_df_sorted twoCatalog twoWorld twoRows (by rfl)

/-! ## C10: the merge is an inner join on id -/

/-- Every row of the reorder frame joins a decodable cache record with a
catalog entry sharing its id. -/
theorem get_reorder_df_mem (alist : List CatalogEntry) (w : World)
    (rows : List ReorderRow) (h : get_reorder_df alist w = .ok rows) :
    ∀ r ∈ rows, (∃ e ∈ alist, e.id = r.id) ∧
      ∃ fname fd hrec, (fname, fd) ∈ w.files ∧ jsonLoad fd = .ok hrec ∧
        hrec.anime_id = r.id := by
  unfold get_reorder_df at h
  split at h
  · exact Except.noConfusion h
  rename_i rows0 hsf
  split at h
  · exact Except.noConfusion h
  split at h
  · exact Except.noConfusion h
  rename_i keyed hkey
  injection h with h
  subst h
  intro r hr
  obtain ⟨rk, hrk, hr2⟩ := List.mem_flatMap.mp hr
  obtain ⟨e, he, hre⟩ := List.mem_map.mp hr2
  rw [List.mem_filter] at he
  obtain ⟨heal, hid⟩ := he
  have hid' : e.id = rk.1.id := by simpa using hid
  have hk : rk ∈ keyed := (List.mem_insertionSort _).mp hrk
  obtain ⟨_, hmem0⟩ := toDatetimeCol_spec rows0 keyed hkey rk hk
  have hfiles : ∃ fname fd hrec, (fname, fd) ∈ w.files ∧ jsonLoad fd = .ok hrec ∧
      recordDates hrec = .ok rk.1 := by
    unfold get_start_finish_dates at hsf
    split at hsf
    · exact readCacheFiles_spec w.files rows0 hsf rk.1 hmem0
    · exact Except.noConfusion hsf
  obtain ⟨fname, fd, hrec, hmf, hload, hrd⟩ := hfiles
  constructor
  · refine ⟨e, heal, ?_⟩
    rw [← hre]
    exact hid'
  · refine ⟨fname, fd, hrec, hmf, hload, ?_⟩
    have hid2 := recordDates_id hrec rk.1 hrd
    rw [← hre]
    exact hid2.symm

/-- C10: every PATCH issued by `reorder_by_finished_date` targets an id
present both in a decodable cache file and in the fetched catalog (the merge
is an inner join on `id`), and a cached record whose id is absent from the
catalog is silently excluded: the run still succeeds and that id receives no
PATCH. -/
theorem reorder_patches_inner_join (alist : List CatalogEntry) (w w' : World)
    (hpc : w.patchCalls = [])
    (h : reorder_by_finished_date alist w = (w', .ok ())) :
    (∀ p ∈ w'.patchCalls,
        (∃ e ∈ alist, e.id = p.1) ∧
        (∃ fname fd hrec, (fname, fd) ∈ w.files ∧ jsonLoad fd = .ok hrec ∧
            hrec.anime_id = p.1)) ∧
    (∀ idv : Nat, (∀ e ∈ alist, e.id ≠ idv) →
        ∀ p ∈ w'.patchCalls, p.1 ≠ idv) := by
  unfold reorder_by_finished_date at h
  split at h
  · injection h with h1 h2
    exact Except.noConfusion h2
  rename_i rows hrdf
  injection h with h1 _
  subst h1
  have hmem := get_reorder_df_mem alist w rows hrdf
  constructor
  · intro p hp
    dsimp only at hp
    rw [hpc, List.nil_append] at hp
    obtain ⟨r, hrm, hpr⟩ := List.mem_map.mp hp
    have := hmem r hrm
    rw [← hpr]
    exact this
  · intro idv hno p hp
    dsimp only at hp
    rw [hpc, List.nil_append] at hp
    obtain ⟨r, hrm, hpr⟩ := List.mem_map.mp hp
    obtain ⟨⟨e, heal, heid⟩, _⟩ := hmem r hrm
    intro hcontra
    rw [← hpr] at hcontra
    exact hno e heal (heid.trans hcontra)

/-- Witness for C10 on the two-record fixture. -/
theorem reorder_patches_inner_join_witness :
    (∀ p ∈ twoWorldPatched.patchCalls,
        (∃ e ∈ twoCatalog, e.id = p.1) ∧
        (∃ fname fd hrec, (fname, fd) ∈ twoWorld.files ∧ jsonLoad fd = .ok hrec ∧
            hrec.anime_id = p.1)) ∧
    (∀ idv : Nat, (∀ e ∈ twoCatalog, e.id ≠ idv) →
        ∀ p ∈ twoWorldPatched.patchCalls, p.1 ≠ idv) :=
  reorder_patches_inner_join twoCatalog twoWorld twoWorldPatched rfl (by rfl)

end MalSorter
